import Mathlib

/-
Shallow embedding of the elsevier_coordinate_extraction package, used to check
the natural-language specification against the code.  Every definition below is
translated from the Python sources (file and function names are kept where Lean
allows); theorems at the end of the file settle the individual claims.
-/

set_option autoImplicit false

namespace ECE

/-! ## Python string primitives

The Python string methods used by the sources (strip, lower, int parsing) are
modelled over the character list of the string, so that every definition in
this file evaluates by kernel reduction. -/

/-- Python str.strip() with no argument: remove whitespace from both ends. -/
def pyStrip (s : String) : String :=
  String.mk
    (((s.toList.dropWhile Char.isWhitespace).reverse.dropWhile
        Char.isWhitespace).reverse)

/-- Python str.lower() (ASCII case folding suffices for the sources). -/
def pyLower (s : String) : String :=
  String.mk (s.toList.map Char.toLower)

/-- Parse one run of decimal digits to its value; none when the run is empty
or a non-digit occurs. -/
def digitsVal (cs : List Char) : Option Nat :=
  if cs.isEmpty then none
  else
    cs.foldl (fun acc c =>
      match acc with
      | none => none
      | some n => if c.isDigit then some (n * 10 + (c.toNat - 48)) else none)
      (some 0)

/-- Python int(raw) over an attribute string: an optionally signed decimal
integer; none models the ValueError branch of the source. -/
def pyToInt (s : String) : Option Int :=
  match (pyStrip s).toList with
  | '-' :: rest => (digitsVal rest).map (fun n => -(n : Int))
  | '+' :: rest => (digitsVal rest).map (fun n => (n : Int))
  | cs => (digitsVal cs).map (fun n => (n : Int))

/-! ## client.py: ScienceDirectClient._request (lines 109-143)

The response of one HTTP attempt is modelled by its status code together with
the value rate_limits.get_retry_delay would compute for it (an optional number
of seconds, from Retry-After or X-RateLimit-Reset headers). -/

structure ClientResponse where
  status : Nat
  retryDelay : Option ℚ
deriving DecidableEq, Repr

inductive ClientOutcome where
  /-- the 2xx/3xx response is returned to the caller -/
  | success (status : Nat)
  /-- response.raise_for_status() raised httpx.HTTPStatusError (a plain status
  error: the loop attaches no special message to it) -/
  | httpStatusError (status : Nat)
deriving DecidableEq, Repr

/-- response.raise_for_status(): raises for any 4xx/5xx status. -/
def raise_for_status (r : ClientResponse) : ClientOutcome :=
  if 400 ≤ r.status then .httpStatusError r.status else .success r.status

def retriedStatuses : List Nat := [429, 500, 503]

/-- The retry loop of ScienceDirectClient._request.  The pair collects the
durations passed to asyncio.sleep, in order, together with the final outcome.
The first component of the recursion is the attempt counter, the second is
max_retries - attempt (so that the Python guard attempt < max_retries is the
guard remaining > 0 here). -/
def clientRequestAux (responses : Nat → ClientResponse) :
    Nat → Nat → List ℚ × ClientOutcome
  | attempt, remaining =>
    let r := responses attempt
    match r.retryDelay, remaining with
    | some d, rem + 1 =>
      if r.status ∈ retriedStatuses then
        let rest := clientRequestAux responses (attempt + 1) rem
        (d :: rest.1, rest.2)
      else ([], raise_for_status r)
    | some _, 0 => ([], raise_for_status r)
    | none, _ => ([], raise_for_status r)

/-- ScienceDirectClient._request.  The settings value max_rate_limit_wait is
reachable from the method through self._settings, which is why it is a
parameter here, but the loop body never consults it: no branch compares the
computed delay against it and no exceeds-maximum error is ever raised. -/
def clientRequest (maxRateLimitWait : Option ℚ) (maxRetries : Nat)
    (responses : Nat → ClientResponse) : List ℚ × ClientOutcome :=
  clientRequestAux responses 0 maxRetries

/-! ## settings.py: the Settings dataclass (lines 22-36) -/

structure Settings where
  api_key : String
  base_url : String
  timeout : ℚ
  concurrency : Int
  cache_dir : String
  user_agent : String
  insttoken : Option String
  http_proxy : Option String
  https_proxy : Option String
  use_proxy : Bool
  max_rate_limit_wait : Option ℚ

/-- The field names declared by the Settings dataclass in settings.py, in
declaration order.  Note that extraction_workers is not among them, although
extract_coordinates reads cfg.extraction_workers, the CLI builds a Settings
copy with an extraction_workers keyword, and the tests construct Settings with
extraction_workers as well. -/
def settingsFieldNames : List String :=
  ["api_key", "base_url", "timeout", "concurrency", "cache_dir", "user_agent",
   "insttoken", "http_proxy", "https_proxy", "use_proxy", "max_rate_limit_wait"]

/-- Python attribute lookup on a Settings instance succeeds exactly for the
declared dataclass fields; any other name raises AttributeError. -/
def settingsHasAttr (name : String) : Bool :=
  settingsFieldNames.contains name

inductive PyError where
  /-- AttributeError for the named missing attribute -/
  | attributeError (attr : String)
  /-- TypeError, e.g. an unexpected keyword argument in a constructor call -/
  | typeError (message : String)
deriving DecidableEq, Repr

/-! ## extract/coordinates.py: extract_coordinates (lines 20-48)

The per-article work (_build_study) and the study representation are abstract
parameters here: extract_coordinates only schedules them.  The source reads
cfg.extraction_workers before deciding between the single-worker path and the
process-pool path; both paths produce the studies in input order (the pool
path collects (index, study) pairs from as_completed and sorts by index). -/

def extract_coordinates {A S : Type} (cfg : Settings) (build_study : A → S)
    (articles : List A) : Except PyError (List S) :=
  if articles.isEmpty then .ok []
  else if settingsHasAttr "extraction_workers" then
    -- were the field present, both scheduling paths return the input-ordered map
    .ok (articles.map build_study)
  else .error (.attributeError "extraction_workers")

/-! ## types.py: the TableMetadata dataclass (lines 40-49) -/

structure TableMetadata where
  label : Option String
  identifier : Option String
  caption : Option String
  legend : Option String
  foot : Option String
  raw_xml : Option String
deriving DecidableEq, Repr

/-- The field names declared by the TableMetadata dataclass in types.py.
There is no reference_sentences field. -/
def tableMetadataFieldNames : List String :=
  ["label", "identifier", "caption", "legend", "foot", "raw_xml"]

/-- The keyword arguments passed to TableMetadata by its two construction
sites, table_extraction._build_metadata and coordinates._manual_extract_tables:
both pass reference_sentences in addition to the six declared fields. -/
def tableMetadataCallKeywords : List String :=
  ["label", "identifier", "caption", "legend", "foot", "raw_xml",
   "reference_sentences"]

/-- The TableMetadata constructor call made by _build_metadata
(table_extraction.py lines 77-85): a Python dataclass accepts a keyword
argument only for a declared field, so the call succeeds only if every keyword
used at the call site names a declared field. -/
def _build_metadata (label identifier caption legend foot raw_xml : Option String)
    (reference_sentences : List String) : Except PyError TableMetadata :=
  if tableMetadataCallKeywords.all (fun k => tableMetadataFieldNames.contains k) then
    .ok { label := label, identifier := identifier, caption := caption,
          legend := legend, foot := foot, raw_xml := raw_xml }
  else .error (.typeError "unexpected keyword argument reference_sentences")

/-! ## download/api.py: payload inspection and _download_identifier

XML payloads are modelled as element trees; an element carries its namespace
URI and local tag name.  Attributes and text nodes other than leaves are not
needed by _payload_contains_full_text and are omitted. -/

inductive Xml where
  | text (s : String)
  | elem (ns tag : String) (children : List Xml)

/-- ce namespace used by the full-text structural markers. -/
def ceNs : String := "http://www.elsevier.com/xml/common/dtd"

mutual

/-- Does the element or any of its descendants satisfy the predicate? -/
def xmlHas (p : String → String → Bool) : Xml → Bool
  | .text _ => false
  | .elem ns tag children => p ns tag || xmlHasList p children

def xmlHasList (p : String → String → Bool) : List Xml → Bool
  | [] => false
  | x :: xs => xmlHas p x || xmlHasList p xs

end

/-- Does any strict descendant of the root satisfy the predicate?  This is the
xpath .//pattern search used by _payload_contains_full_text. -/
def xmlHasDescendant (root : Xml) (p : String → String → Bool) : Bool :=
  match root with
  | .text _ => false
  | .elem _ _ children => xmlHasList p children

/-- download/api.py lines 317-331.  Payloads that fail to parse are outside the
model (the source returns False for them); all claim inputs are parsed trees. -/
def _payload_contains_full_text (root : Xml) : Bool :=
  xmlHasDescendant root (fun ns tag => ns == ceNs && tag == "body")
  || xmlHasDescendant root (fun ns tag => ns == ceNs && tag == "section")
  || (xmlHasDescendant root (fun ns tag => ns == ceNs && tag == "para")
      || xmlHasDescendant root (fun ns tag => ns == ceNs && tag == "simple-para"))
  || xmlHasDescendant root (fun _ tag => tag == "table")

/-- A successful fresh HTTP response: its payload, status code and the request
URL scheme (recorded as the transport metadata value). -/
structure FreshResponse where
  payload : Xml
  status : Nat
  scheme : String

/-- A fresh HTTP attempt that raised httpx.HTTPStatusError: the response status
and whether _is_invalid_view_error holds of the response. -/
structure FreshError where
  status : Nat
  invalidView : Bool

inductive DownloadError where
  /-- httpx.HTTPStatusError with the offending response attached -/
  | httpStatus (message : String) (status : Nat)
  /-- RuntimeError: no response is attached -/
  | runtime (message : String)
  /-- ValueError from input validation -/
  | valueError (message : String)
deriving DecidableEq, Repr

/-- The metadata recorded on a successfully built article; only the keys the
claims are about are modelled (pii, extracted doi, rate-limit snapshot and
supplementary attachments only add further unrelated keys). -/
structure ArticleResult where
  doi : String
  transport : String
  viewRequested : String
  viewObtained : String
  fullTextRetrieved : Bool
deriving DecidableEq, Repr

def fullViewMismatchMessage : String :=
  "ScienceDirect returned metadata-only payload when FULL view was requested. Confirm your entitlements allow full-text retrieval."

def cachedViewMismatchMessage : String :=
  fullViewMismatchMessage ++ " Cached payload violates requirement."

def rejectedFullViewMessage : String :=
  "ScienceDirect rejected FULL view. Ensure your credentials grant full-text access."

/-- download/api.py lines 169-282, _download_identifier.  The cache lookup
result and the outcome a fresh HTTP request would have are passed in; the
requested view is the constant FULL (initial_view in the source).  The cache
write, pii/doi extraction and supplementary-link extraction are omitted: they
only add metadata keys and never raise.  The doi returned for pmid lookups
falls back to the identifier when no doi is embedded in the payload. -/
def _download_identifier (identifier identifierType : String)
    (cached : Option Xml) (fresh : Except FreshError FreshResponse) :
    Except DownloadError ArticleResult :=
  let idType := pyLower identifierType
  if idType ≠ "doi" ∧ idType ≠ "pmid" then
    .error (.valueError "identifier_type must be either doi or pmid")
  else
    let fetched : Except DownloadError (Xml × String × Option Nat) :=
      match cached with
      | some payload => .ok (payload, "cache", none)
      | none =>
        match fresh with
        | .error e =>
          if e.status = 400 ∧ e.invalidView then
            .error (.httpStatus rejectedFullViewMessage e.status)
          else
            .error (.httpStatus "HTTP status error" e.status)
        | .ok r => .ok (r.payload, r.scheme, some r.status)
    match fetched with
    | .error e => .error e
    | .ok (payload, transport, responseStatus) =>
      let fullText := _payload_contains_full_text payload
      let inferredView := if fullText then "FULL" else "STANDARD"
      if fullText = false then
        -- initial_view == "FULL" always holds: the view requested is FULL
        match responseStatus with
        | some st => .error (.httpStatus fullViewMismatchMessage st)
        | none => .error (.runtime cachedViewMismatchMessage)
      else
        .ok { doi := identifier, transport := transport, viewRequested := "FULL",
              viewObtained := inferredView, fullTextRetrieved := fullText }

/-! ## download/api.py: _download_record (lines 127-166)

One identifier attempt is a pair of identifier type and value; the outcome of
an attempt is either an article (abstract here) or the status code of the
httpx.HTTPStatusError it raised (the only data the resolver inspects; every
other exception type propagates outside this function and is not modelled). -/

inductive RecordError where
  | valueError
  | http (status : Nat)
deriving DecidableEq, Repr

/-- Lines 136-141: the ordered attempt list, doi first when present, then the
pmid only when its value is not already among the attempted values. -/
def buildAttempts (doi pmid : String) : List (String × String) :=
  let base := if doi ≠ "" then [("doi", doi)] else []
  if pmid ≠ "" ∧ ¬ pmid ∈ base.map Prod.snd then base ++ [("pmid", pmid)]
  else base

/-- Lines 145-160: try each attempt in order; an httpx.HTTPStatusError becomes
the remembered last_error and the loop continues; a success returns at once
(the source also setdefaults an identifier_lookup metadata key on the article,
which is not modelled).  The trace of attempts actually issued is returned
alongside the outcome. -/
def attemptLoop {α : Type} (f : String × String → Except Nat α) :
    List (String × String) → Option Nat →
    List (String × String) × Except RecordError (Option α)
  | [], lastError =>
    ([], match lastError with
         | some st => if st = 404 then .ok none else .error (.http st)
         | none => .ok none)
  | att :: rest, _ =>
    match f att with
    | .error st =>
      let tr := attemptLoop f rest (some st)
      (att :: tr.1, tr.2)
    | .ok a => ([att], .ok (some a))

/-- download/api.py lines 127-166, _download_record. -/
def _download_record {α : Type} (doiRaw pmidRaw : String)
    (f : String × String → Except Nat α) :
    List (String × String) × Except RecordError (Option α) :=
  let doi := pyStrip doiRaw
  let pmid := pyStrip pmidRaw
  let attempts := buildAttempts doi pmid
  if attempts.isEmpty then ([], .error .valueError)
  else attemptLoop f attempts none

/-! ## extract/coordinates.py: _heuristic_space (lines 99-111) and the
classifier fallback of _build_study (lines 65-70) -/

/-- Is the first list a prefix of the second? -/
def charsPrefixOf : List Char → List Char → Bool
  | [], _ => true
  | _ :: _, [] => false
  | a :: as, b :: bs => (a == b) && charsPrefixOf as bs

/-- Does the needle occur as a contiguous run somewhere in the haystack? -/
def charsSubOf : List Char → List Char → Bool
  | needle, [] => needle.isEmpty
  | needle, c :: rest => charsPrefixOf needle (c :: rest) || charsSubOf needle rest

/-- Python substring membership: needle in hay. -/
def strContains (hay needle : String) : Bool :=
  charsSubOf needle.toList hay.toList

/-- Line 100 and 103: the stripped, lowercased concatenation of header text and
metadata text. -/
def combinedLower (headerText metaText : String) : String :=
  pyLower (pyStrip (headerText ++ " " ++ metaText))

/-- Line 106: the Talairach spelling variants. -/
def talTokens : List String :=
  ["talair", "talairach", "talairac", "talairarch", "tala"]

/-- extract/coordinates.py lines 99-111. -/
def _heuristic_space (headerText metaText : String) : Option String :=
  if pyStrip (headerText ++ " " ++ metaText) = "" then none
  else
    let combined := combinedLower headerText metaText
    if strContains combined "mni" || strContains combined "montreal" then
      some "MNI"
    else if talTokens.any (fun t => strContains combined t) then
      some "TAL"
    else if strContains combined "spm" && strContains combined "coordinate" then
      some "MNI"
    else none

/-- The space resolution of _build_study, lines 65-70: the heuristic first,
then the external classifier (pubget _neurosynth_guess_space, a parameter
here) over the article text, whose answer is used only when it is not the
UNKNOWN sentinel. -/
def resolveSpace (headerText metaText articleText : String)
    (classify : String → String) : Option String :=
  match _heuristic_space headerText metaText with
  | some s => some s
  | none =>
    let guessed := classify articleText
    if guessed ≠ "UNKNOWN" then some guessed else none

/-! ## extract/coordinates.py: _cals_table_to_dataframe (lines 274-362)

A CALS entry cell carries its text (already whitespace-joined) and the raw
attribute strings the source reads; a tgroup carries the colname attribute of
each colspec and its rows, each row being the list of its entry children (the
source skips non-entry children, so they are not represented). -/

structure CalsCell where
  text : String
  morerows : Option String := none
  colname : Option String := none
  namest : Option String := none
  nameend : Option String := none
  colspan : Option String := none
deriving DecidableEq, Repr

structure CalsTgroup where
  colspecs : List (Option String)
  rows : List (List CalsCell)
deriving DecidableEq, Repr

/-- Lines 279-281: column order from the colspec sequence, with positional
fallback names. -/
def colOrderOf (colspecs : List (Option String)) : List String :=
  colspecs.enum.map (fun p => p.2.getD ("col" ++ toString (p.1 + 1)))

/-- Line 282: the name-to-index dict; a duplicated colname keeps the last
index, as a Python dict comprehension does. -/
def lastIndexOf (names : List String) (n : String) : Option Nat :=
  (names.enum.filterMap (fun p => if p.2 = n then some p.1 else none)).getLast?

/-- Lines 306-308: one row of carry-over bookkeeping for a pending rowspan
record: decrement the remaining count, clear the slot when it reaches zero.
The remaining count is registered as rowspan - 1, a positive number. -/
def decPending : Option (String × Nat) → Option (String × Nat)
  | none => none
  | some (t, rem) => if rem ≤ 1 then none else some (t, rem - 1)

/-- Lines 326-327: advance the pointer past filled columns. -/
def scanPointer (filled : List Bool) (p : Nat) : Nat :=
  p + ((filled.drop p).takeWhile (fun b => b)).length

/-- A bounded sequential write loop: for offset below count, set index
start + offset to f offset, skipping indices at or beyond nCols (the break
and the continue of the source loops coincide because offsets increase). -/
def setRange {α : Type} (nCols start count : Nat) (f : Nat → α)
    (vals : List α) : List α :=
  (List.range count).foldl
    (fun v off => if start + off < nCols then v.set (start + off) (f off) else v)
    vals

/-- Lines 315-319: morerows parsing; rowspan = morerows + 1, defaulting to 1
when absent or unparseable. -/
def entryRowspan (c : CalsCell) : Int :=
  match c.morerows with
  | none => 1
  | some raw =>
    match pyToInt raw with
    | some k => k + 1
    | none => 1

/-- Lines 330-339: horizontal span of the cell given its resolved start
column: from nameend when present, else from colspan, else 1.  Under Nat
subtraction e - start + 1 equals the max(1, end - start + 1) of the source. -/
def entrySpan (colIdx : String → Option Nat) (start : Nat) (c : CalsCell) : Nat :=
  match c.nameend with
  | some n =>
    let e := (colIdx n).getD start
    e - start + 1
  | none =>
    match c.colspan with
    | some raw =>
      match pyToInt raw with
      | some k => (max 1 k).toNat
      | none => 1
    | none => 1

structure RowState where
  values : List String
  filled : List Bool
  pending : List (Option (String × Nat))
  pointer : Nat

/-- Lines 311-356: place one entry cell into the row under construction. -/
def placeCell (nCols : Nat) (colIdx : String → Option Nat)
    (st : RowState) (c : CalsCell) : RowState :=
  let startAndPtr : Nat × Nat :=
    match c.colname with
    | some n => (((colIdx n).getD st.pointer), st.pointer)
    | none =>
      match c.namest with
      | some n => (((colIdx n).getD st.pointer), st.pointer)
      | none =>
        let p := scanPointer st.filled st.pointer
        (p, p)
  let start := startAndPtr.1
  let ptr := startAndPtr.2
  let span := entrySpan colIdx start c
  if nCols ≤ start then { st with pointer := ptr }
  else
    let values :=
      setRange nCols start span (fun off => if off = 0 then c.text else "") st.values
    let filled := setRange nCols start span (fun _ => true) st.filled
    let pointer := max ptr (start + span)
    let rowspan := entryRowspan c
    let pending :=
      if 1 < rowspan then
        setRange nCols start span (fun _ => some (c.text, (rowspan - 1).toNat)) st.pending
      else st.pending
    { values := values, filled := filled, pending := pending, pointer := pointer }

/-- Lines 297-358: build one grid row: prefill from the pending carry-overs,
then place each entry left to right; returns the row of cell strings and the
updated pending vector. -/
def calsRowStep (nCols : Nat) (colIdx : String → Option Nat)
    (pending : List (Option (String × Nat))) (cells : List CalsCell) :
    List String × List (Option (String × Nat)) :=
  let values0 := pending.map (fun sp => match sp with
    | some (t, _) => t
    | none => "")
  let filled0 := pending.map Option.isSome
  let pending0 := pending.map decPending
  let st := cells.foldl (placeCell nCols colIdx)
    { values := values0, filled := filled0, pending := pending0, pointer := 0 }
  (st.values, st.pending)

def calsRowsGo (nCols : Nat) (colIdx : String → Option Nat) :
    List (Option (String × Nat)) → List (List CalsCell) → List (List String)
  | _, [] => []
  | pending, r :: rs =>
    let vp := calsRowStep nCols colIdx pending r
    vp.1 :: calsRowsGo nCols colIdx vp.2 rs

/-- extract/coordinates.py lines 274-362, _cals_table_to_dataframe, returning
the column labels and the grid (the data of the resulting DataFrame). -/
def _cals_table_to_dataframe (tg : CalsTgroup) :
    Option (List String × List (List String)) :=
  if tg.colspecs.isEmpty then none
  else
    let colOrder := colOrderOf tg.colspecs
    let nCols := colOrder.length
    let colIdx := fun n => lastIndexOf colOrder n
    if tg.rows.isEmpty then none
    else
      let grid := calsRowsGo nCols colIdx (List.replicate nCols none) tg.rows
      if grid.length ≤ 1 then none else some (colOrder, grid)

/-- Cell access inside the optional reconstruction result, for stating grid
properties. -/
def gridCellOf (res : Option (List String × List (List String)))
    (i j : Nat) : Option String :=
  res.bind (fun p => (p.2.get? i).bind (fun r => r.get? j))

/-! ## extract/coordinates.py: _normalize_table (lines 377-424) and
_extract_coordinates_from_dataframe (lines 365-374)

A DataFrame is its column labels and its data rows of cell strings.  Grid
cells coming from the reconstruction above are always strings, never NaN, so
the dropna(axis=1) step of the source is the identity here. -/

structure Dataframe where
  columns : List String
  rows : List (List String)
deriving DecidableEq, Repr

def cellAt (r : List String) (j : Nat) : String := (r.get? j).getD ""

def cellOf (rows : List (List String)) (i j : Nat) : String :=
  cellAt ((rows.get? i).getD []) j

/-- Lines 388-390: does a row qualify as the x/y/z header anchor?  The set of
its lowercased, stripped, nonblank cells must contain x, y and z. -/
def rowQualifies (r : List String) : Bool :=
  (["x", "y", "z"] : List String).all (fun t =>
    r.any (fun c => (decide (pyStrip c ≠ "")) && (pyLower (pyStrip c) == t)))

/-- Lines 383-392: scan at most the first min(5, length) rows for the first
qualifying row; the budget argument starts at 5. -/
def findAnchorAux : Nat → List (List String) → Option Nat
  | 0, _ => none
  | _ + 1, [] => none
  | b + 1, r :: rs =>
    if rowQualifies r then some 0 else (findAnchorAux b rs).map (fun i => i + 1)

/-- Lines 397-402: the effective header of a column is the nearest nonblank
stripped cell at or above the anchor row, scanning upward. -/
def backfillHeader (rows : List (List String)) (colIdx : Nat) :
    Nat → Option String
  | 0 =>
    let c := pyStrip (cellOf rows 0 colIdx)
    if c = "" then none else some c
  | k + 1 =>
    let c := pyStrip (cellOf rows (k + 1) colIdx)
    if c = "" then backfillHeader rows colIdx k else some c

/-- Last-wins association lookup, mirroring a Python dict built in order. -/
def lookupLast (ps : List (String × String)) (k : String) : Option String :=
  ((ps.filter (fun p => p.1 == k)).getLast?).map Prod.snd

/-- Line 418: drop duplicate-named columns, keeping the first occurrence. -/
def keepIndices (cols : List String) : List Nat :=
  (List.range cols.length).filter (fun i => ! (cols.take i).contains (cellAt cols i))

def dedupeColumns (df : Dataframe) : Dataframe :=
  let keep := keepIndices df.columns
  { columns := keep.map (cellAt df.columns),
    rows := df.rows.map (fun r => keep.map (cellAt r)) }

/-- Lines 420-423: when x, y and z are all among the columns, reorder so they
lead, the other columns following in their original relative order.  Column
selection is by label; labels are unique after deduplication. -/
def reorderXyz (df : Dataframe) : Dataframe :=
  let xyz := (["x", "y", "z"] : List String).filter (fun c => df.columns.contains c)
  if xyz.length = 3 then
    let others := df.columns.filter (fun c => ! xyz.contains c)
    let names := xyz ++ others
    let idxs := names.map (fun n => (df.columns.findIdx? (fun c => c == n)).getD 0)
    { columns := names, rows := df.rows.map (fun r => idxs.map (cellAt r)) }
  else df

/-- extract/coordinates.py lines 377-424, _normalize_table. -/
def _normalize_table (df : Dataframe) : Dataframe :=
  if df.rows.isEmpty then df
  else
    let df1 :=
      match findAnchorAux 5 df.rows with
      | some k =>
        let combined := (List.range df.columns.length).map (fun colIdx =>
          (backfillHeader df.rows colIdx k).getD (cellAt df.columns colIdx))
        { columns := combined, rows := df.rows.drop (k + 1) }
      | none =>
        let firstRow := ((df.rows.get? 0).getD []).map (fun c => pyLower (pyStrip c))
        if (["x", "y", "z"] : List String).all (fun t => firstRow.contains t) then
          let renames := firstRow.enum.filterMap (fun p =>
            if p.2 = "x" ∨ p.2 = "y" ∨ p.2 = "z" then
              some (cellAt df.columns p.1, p.2)
            else none)
          { columns := df.columns.map (fun c => (lookupLast renames c).getD c),
            rows := df.rows.drop 1 }
        else df
    reorderXyz (dedupeColumns df1)

/-- Split a character list at every dot. -/
def splitDotAux : List Char → List Char → List (List Char)
  | acc, [] => [acc.reverse]
  | acc, c :: rest =>
    if c = '.' then acc.reverse :: splitDotAux [] rest
    else splitDotAux (c :: acc) rest

/-- Modelled from the spec: the numeric coercion of section 4.3 (pd.to_numeric
in the source, an external library routine).  A cell is syntactically numeric
when, after stripping, it is an optionally signed decimal literal; exponent
forms are not exercised by any claim and are left out. -/
def parseFloat (s : String) : Option ℚ :=
  let t := (pyStrip s).toList
  let signAndBody : ℚ × List Char :=
    match t with
    | '-' :: rest => (-1, rest)
    | '+' :: rest => (1, rest)
    | cs => (1, cs)
  let sign := signAndBody.1
  let body := signAndBody.2
  match splitDotAux [] body with
  | [i] => (digitsVal i).map (fun n => sign * n)
  | [i, f] =>
    match digitsVal i, digitsVal f with
    | some n, some m => some (sign * ((n : ℚ) + (m : ℚ) / (10 : ℚ) ^ f.length))
    | some n, none => if f.isEmpty then some (sign * n) else none
    | none, some m =>
      if i.isEmpty then some (sign * ((m : ℚ) / (10 : ℚ) ^ f.length)) else none
    | none, none => none
  | _ => none

def findColumn (cols : List String) (n : String) : Option Nat :=
  cols.findIdx? (fun c => pyLower (pyStrip c) == n)

/-- Modelled from the spec: pubget _extract_coordinates_from_table, an external
dependency whose sources are not part of this repository.  Per the contract of
section 4.3, it selects the x, y and z columns of the normalized table
(case-insensitive, stripped label match) and coerces every data value of those
columns to a number, dropping a row silently when any of its three coercions
fails; each surviving row yields one coordinate triple. -/
def _extract_coordinates_from_table (df : Dataframe) : List (ℚ × ℚ × ℚ) :=
  match findColumn df.columns "x", findColumn df.columns "y",
        findColumn df.columns "z" with
  | some ix, some iy, some iz =>
    df.rows.filterMap (fun r =>
      match parseFloat (cellAt r ix), parseFloat (cellAt r iy),
            parseFloat (cellAt r iz) with
      | some a, some b, some c => some (a, b, c)
      | _, _, _ => none)
  | _, _, _ => []

/-- extract/coordinates.py lines 365-374: normalize, then extract; the final
pd.to_numeric / dropna pass of the source re-coerces values that are already
numbers and is the identity here. -/
def _extract_coordinates_from_dataframe (df : Dataframe) : List (ℚ × ℚ × ℚ) :=
  _extract_coordinates_from_table (_normalize_table df)

/-! ## Concrete instances used by the claim theorems -/

/-- A Settings instance with the default configuration values. -/
def cfgExample : Settings :=
  { api_key := "test-key", base_url := "https://api.elsevier.com/content",
    timeout := 30, concurrency := 4, cache_dir := ".elsevier_cache",
    user_agent := "elsevierCoordinateExtraction/0.1.0", insttoken := none,
    http_proxy := none, https_proxy := none, use_proxy := false,
    max_rate_limit_wait := some 3600 }

/-- A CALS tgroup with three columns whose first row holds one cell spanning
two rows (morerows 1) and two columns (namest c1, nameend c2) with text s,
followed by an ordinary cell a; the second row holds one ordinary cell b. -/
def exC4gen (s a b : String) : CalsTgroup :=
  { colspecs := [some "c1", some "c2", some "c3"],
    rows := [
      [ { text := s, morerows := some "1", namest := some "c1",
          nameend := some "c2" },
        { text := a } ],
      [ { text := b } ] ] }

def exC4 : CalsTgroup := exC4gen "S" "A" "B"

/-! ## Claim theorems -/

/-- C2: the claim says that when a retried-status response carries a retry
delay exceeding the configured maximum rate-limit wait, _request raises a
distinguishable exceeds-maximum error immediately without sleeping.  The code
has no such branch: with max_rate_limit_wait = 60 and every attempt answering
429 with a 4000 second delay, the loop sleeps 4000 seconds three times (the
full retry budget) and then raises the plain 429 status error, for any
configured maximum. -/
theorem C2_rate_limit_ceiling_not_enforced (w : Option ℚ) :
    clientRequest w 3 (fun _ => { status := 429, retryDelay := some 4000 }) =
      ([4000, 4000, 4000], ClientOutcome.httpStatusError 429) := rfl

/-- C6: extract_coordinates reads cfg.extraction_workers, but the Settings
dataclass declares no such field, so every call on a nonempty article list
raises AttributeError instead of returning one study per article. -/
theorem C6_extraction_workers_attribute_error {A S : Type} (cfg : Settings)
    (build_study : A → S) (articles : List A) (h : articles ≠ []) :
    extract_coordinates cfg build_study articles =
      .error (.attributeError "extraction_workers") := by
  have h1 : articles.isEmpty = false := by
    cases articles with
    | nil => exact absurd rfl h
    | cons a as => rfl
  have h2 : settingsHasAttr "extraction_workers" = false := rfl
  simp [extract_coordinates, h1, h2]

theorem C6_extraction_workers_witness :
    extract_coordinates cfgExample (fun n : Nat => n) [1] =
      .error (.attributeError "extraction_workers") :=
  C6_extraction_workers_attribute_error cfgExample (fun n => n) [1]
    (List.cons_ne_nil 1 [])

/-- C10: the claim says constructing TableMetadata with a list of reference
sentences succeeds.  The TableMetadata dataclass declares no
reference_sentences field, so the constructor call made by _build_metadata
(and by _manual_extract_tables) raises TypeError. -/
theorem C10_reference_sentences_keyword_rejected :
    _build_metadata (some "Table 1") (some "tbl1") (some "Coordinates") none
      none (some "<ce:table id=tbl1/>")
      ["This paragraph references Table 1 for coordinates."] =
      .error (.typeError "unexpected keyword argument reference_sentences") :=
  rfl

/-- C4 counterexample: in the reconstruction of exC4, whose first cell is
declared to span 2 rows and 2 columns with text S, the covered position in the
second column of the declaring row holds the empty string, not S, so the cell
text does not appear in all 4 covered grid positions. -/
theorem C4_span_counterexample :
    gridCellOf (_cals_table_to_dataframe exC4) 0 0 = some "S" ∧
    gridCellOf (_cals_table_to_dataframe exC4) 1 0 = some "S" ∧
    gridCellOf (_cals_table_to_dataframe exC4) 1 1 = some "S" ∧
    gridCellOf (_cals_table_to_dataframe exC4) 0 1 = some "" ∧
    ("" : String) ≠ "S" := by
  decide

/-- C4 amended: reconstruction places the 2x2-spanning cell text S in the
first covered column of the declaring row, blanks the second covered column of
that row, propagates the text to both covered columns of the following row,
and leaves every other cell (here A and B) unaffected. -/
theorem C4_span_amended :
    _cals_table_to_dataframe exC4 =
      some (["c1", "c2", "c3"], [["S", "", "A"], ["S", "S", "B"]]) := by
  decide

/-- A payload with zero full-text structural markers: an article element
holding only an item-info element in the svapi namespace. -/
def metaOnlyPayload : Xml :=
  .elem "http://www.elsevier.com/xml/svapi/article/dtd" "article"
    [.elem "http://www.elsevier.com/xml/svapi/article/dtd" "item-info" []]

/-- C1 counterexample: serving a marker-free payload from the cache under a
FULL-view request does not complete without error; _download_identifier
raises a RuntimeError for the cache path. -/
theorem C1_cache_view_counterexample :
    _download_identifier "10.1016/j.neucli.2007.12.007" "doi"
      (some metaOnlyPayload) (.error { status := 500, invalidView := false }) =
      .error (.runtime cachedViewMismatchMessage) := rfl

/-- C1 amended: for a payload with zero full-text structural markers under a
FULL-view request, the fresh-fetch path raises the distinguishable
view-mismatch HTTP status error carrying the response, and the cache path also
fails, raising a RuntimeError stating that the cached payload violates the
requirement, instead of completing with the discrepancy recorded only in the
metadata. -/
theorem C1_view_mismatch_both_paths (identifier : String) (p : Xml)
    (hft : _payload_contains_full_text p = false) :
    (∀ fresh, _download_identifier identifier "doi" (some p) fresh =
        .error (.runtime cachedViewMismatchMessage)) ∧
    (∀ r : FreshResponse, r.payload = p →
        _download_identifier identifier "doi" none (.ok r) =
          .error (.httpStatus fullViewMismatchMessage r.status)) := by
  constructor
  · intro fresh
    simp only [_download_identifier]
    rw [if_neg (by decide)]
    simp [hft]
  · intro r hr
    simp only [_download_identifier]
    rw [if_neg (by decide)]
    simp [hr, hft]

theorem C1_view_mismatch_witness :
    _download_identifier "10.1016/j.x" "doi" (some metaOnlyPayload)
      (.error { status := 404, invalidView := false }) =
      .error (.runtime cachedViewMismatchMessage) ∧
    _download_identifier "10.1016/j.x" "doi" none
      (.ok { payload := metaOnlyPayload, status := 200, scheme := "https" }) =
      .error (.httpStatus fullViewMismatchMessage 200) :=
  ⟨(C1_view_mismatch_both_paths "10.1016/j.x" metaOnlyPayload rfl).1 _,
   (C1_view_mismatch_both_paths "10.1016/j.x" metaOnlyPayload rfl).2
     { payload := metaOnlyPayload, status := 200, scheme := "https" } rfl⟩

/-- The attempt outcome used by the C3 counterexample: the doi attempt raises
an HTTP status error with status 500, the pmid attempt succeeds. -/
def fC3 : String × String → Except Nat String :=
  fun att => if att.1 = "doi" then .error 500 else .ok "article"

/-- C3 counterexample: after the doi attempt fails with status 500 (not a 404),
the resolver does not abort and propagate; it issues the pmid attempt as well
and returns its article. -/
theorem C3_non404_counterexample :
    _download_record "10.1016/j.x" "12345" fC3 =
      ([("doi", "10.1016/j.x"), ("pmid", "12345")], .ok (some "article")) := rfl

/-- C3 amended: an attempt failing with any HTTP status error, 404 or not, is
remembered and the resolver proceeds to the next identifier attempt; only
after every attempt has failed does the last remembered error matter: a 404
resolves the record to no document, any other status propagates. -/
theorem C3_http_error_continues {α : Type} (doiRaw pmidRaw : String)
    (f : String × String → Except Nat α) (st : Nat)
    (hd : pyStrip doiRaw ≠ "") (hp : pyStrip pmidRaw ≠ "")
    (hne : pyStrip pmidRaw ≠ pyStrip doiRaw)
    (herr : f ("doi", pyStrip doiRaw) = .error st) :
    _download_record doiRaw pmidRaw f =
      match f ("pmid", pyStrip pmidRaw) with
      | .ok a =>
        ([("doi", pyStrip doiRaw), ("pmid", pyStrip pmidRaw)], .ok (some a))
      | .error st2 =>
        ([("doi", pyStrip doiRaw), ("pmid", pyStrip pmidRaw)],
          if st2 = 404 then .ok none else .error (.http st2)) := by
  have hatt : buildAttempts (pyStrip doiRaw) (pyStrip pmidRaw) =
      [("doi", pyStrip doiRaw), ("pmid", pyStrip pmidRaw)] := by
    simp [buildAttempts, hd, hp, hne]
  simp only [_download_record, hatt]
  cases hfp : f ("pmid", pyStrip pmidRaw) with
  | ok a => simp [attemptLoop, herr, hfp]
  | error st2 => simp [attemptLoop, herr, hfp]

/-- The attempt outcome used by the C3 witness: the doi attempt fails with 500,
the pmid attempt fails with 404; the record then resolves to no document. -/
def fC3w : String × String → Except Nat Unit :=
  fun att => if att.1 = "doi" then .error 500 else .error 404

theorem C3_http_error_witness :
    _download_record "10.1016/j.y" "67890" fC3w =
      ([("doi", "10.1016/j.y"), ("pmid", "67890")], .ok none) := by
  have h := C3_http_error_continues "10.1016/j.y" "67890" fC3w 500
    (by decide) (by decide) (by decide) rfl
  exact h

/-- C5: for a record with both identifiers present (after stripping), the doi
is the first attempt, the pmid appears among the attempts exactly when its
value differs from the doi value, and a successful doi fetch returns at once,
the pmid never being attempted. -/
theorem C5_doi_first {α : Type} (doiRaw pmidRaw : String)
    (f : String × String → Except Nat α)
    (hd : pyStrip doiRaw ≠ "") (hp : pyStrip pmidRaw ≠ "") :
    (buildAttempts (pyStrip doiRaw) (pyStrip pmidRaw)).head? =
      some ("doi", pyStrip doiRaw) ∧
    ((("pmid", pyStrip pmidRaw) ∈
        buildAttempts (pyStrip doiRaw) (pyStrip pmidRaw)) ↔
      pyStrip pmidRaw ≠ pyStrip doiRaw) ∧
    (∀ a : α, f ("doi", pyStrip doiRaw) = .ok a →
      _download_record doiRaw pmidRaw f =
        ([("doi", pyStrip doiRaw)], .ok (some a))) := by
  refine ⟨?_, ?_, ?_⟩
  · by_cases hne : pyStrip pmidRaw = pyStrip doiRaw <;>
      simp [buildAttempts, hd, hp, hne]
  · by_cases hne : pyStrip pmidRaw = pyStrip doiRaw <;>
      simp [buildAttempts, hd, hp, hne]
  · intro a hfa
    by_cases hne : pyStrip pmidRaw = pyStrip doiRaw <;>
      simp [_download_record, buildAttempts, hd, hp, hne, attemptLoop, hfa]

/-- The attempt outcome used by the C5 witness: every attempt succeeds. -/
def fC5 : String × String → Except Nat String := fun _ => .ok "art"

theorem C5_doi_first_witness :
    _download_record "10.1016/j.a" "99999" fC5 =
      ([("doi", "10.1016/j.a")], .ok (some "art")) :=
  (C5_doi_first "10.1016/j.a" "99999" fC5 (by decide) (by decide)).2.2 "art" rfl

/-- Line 104 of _heuristic_space: the MNI keyword test. -/
def mniHit (headerText metaText : String) : Bool :=
  strContains (combinedLower headerText metaText) "mni"
  || strContains (combinedLower headerText metaText) "montreal"

/-- Lines 106-107: the Talairach spelling-variant test. -/
def talHit (headerText metaText : String) : Bool :=
  talTokens.any (fun t => strContains (combinedLower headerText metaText) t)

/-- Line 109: the SPM test. -/
def spmHit (headerText metaText : String) : Bool :=
  strContains (combinedLower headerText metaText) "spm"
  && strContains (combinedLower headerText metaText) "coordinate"

lemma heuristic_space_eq (headerText metaText : String) :
    _heuristic_space headerText metaText =
      if pyStrip (headerText ++ " " ++ metaText) = "" then none
      else if mniHit headerText metaText then some "MNI"
      else if talHit headerText metaText then some "TAL"
      else if spmHit headerText metaText then some "MNI"
      else none := rfl

lemma hits_false_of_blank (headerText metaText : String)
    (ht : pyStrip (headerText ++ " " ++ metaText) = "") :
    mniHit headerText metaText = false ∧ talHit headerText metaText = false ∧
      spmHit headerText metaText = false := by
  have hcl : combinedLower headerText metaText = "" := by
    unfold combinedLower
    rw [ht]
    rfl
  refine ⟨?_, ?_, ?_⟩
  · unfold mniHit
    rw [hcl]
    decide
  · unfold talHit
    rw [hcl]
    decide
  · unfold spmHit
    rw [hcl]
    decide

/-- C8: space inference applies its case-insensitive substring heuristics in
fixed priority order over the concatenated header and metadata text: an mni or
montreal hit yields MNI; otherwise a Talairach spelling-variant hit yields
TAL; otherwise a combined spm and coordinate hit yields MNI; otherwise the
heuristic yields none, and when the external classifier fallback answers with
the UNKNOWN sentinel the space stays unset. -/
theorem C8_space_inference_priority (headerText metaText articleText : String)
    (classify : String → String) :
    (mniHit headerText metaText = true →
      _heuristic_space headerText metaText = some "MNI") ∧
    (mniHit headerText metaText = false → talHit headerText metaText = true →
      _heuristic_space headerText metaText = some "TAL") ∧
    (mniHit headerText metaText = false → talHit headerText metaText = false →
      spmHit headerText metaText = true →
      _heuristic_space headerText metaText = some "MNI") ∧
    (mniHit headerText metaText = false → talHit headerText metaText = false →
      spmHit headerText metaText = false →
      _heuristic_space headerText metaText = none) ∧
    (_heuristic_space headerText metaText = none →
      classify articleText = "UNKNOWN" →
      resolveSpace headerText metaText articleText classify = none) := by
  refine ⟨?_, ?_, ?_, ?_, ?_⟩
  · intro hm
    by_cases ht : pyStrip (headerText ++ " " ++ metaText) = ""
    · rw [(hits_false_of_blank headerText metaText ht).1] at hm
      exact absurd hm (by decide)
    · rw [heuristic_space_eq, if_neg ht, if_pos hm]
  · intro hm htal
    by_cases ht : pyStrip (headerText ++ " " ++ metaText) = ""
    · rw [(hits_false_of_blank headerText metaText ht).2.1] at htal
      exact absurd htal (by decide)
    · rw [heuristic_space_eq, if_neg ht, if_neg (by simp [hm]), if_pos htal]
  · intro hm htal hspm
    by_cases ht : pyStrip (headerText ++ " " ++ metaText) = ""
    · rw [(hits_false_of_blank headerText metaText ht).2.2] at hspm
      exact absurd hspm (by decide)
    · rw [heuristic_space_eq, if_neg ht, if_neg (by simp [hm]),
        if_neg (by simp [htal]), if_pos hspm]
  · intro hm htal hspm
    by_cases ht : pyStrip (headerText ++ " " ++ metaText) = ""
    · rw [heuristic_space_eq, if_pos ht]
    · rw [heuristic_space_eq, if_neg ht, if_neg (by simp [hm]),
        if_neg (by simp [htal]), if_neg (by simp [hspm])]
  · intro hnone hcl
    unfold resolveSpace
    rw [hnone, hcl]
    simp

theorem C8_space_inference_witness :
    _heuristic_space "x y z" "Talairach coordinates" = some "TAL" ∧
    _heuristic_space "x y z" "MNI space" = some "MNI" ∧
    resolveSpace "x y z" "region labels only" "plain article text"
      (fun _ => "UNKNOWN") = none :=
  ⟨(C8_space_inference_priority "x y z" "Talairach coordinates" ""
      (fun _ => "UNKNOWN")).2.1 (by decide) (by decide),
   (C8_space_inference_priority "x y z" "MNI space" ""
      (fun _ => "UNKNOWN")).1 (by decide),
   (C8_space_inference_priority "x y z" "region labels only"
      "plain article text" (fun _ => "UNKNOWN")).2.2.2.2 (by decide) rfl⟩

lemma foldl_length_inv {α β : Type} (g : List α → β → List α)
    (hg : ∀ v b, (g v b).length = v.length) :
    ∀ (bs : List β) (v : List α), (bs.foldl g v).length = v.length := by
  intro bs
  induction bs with
  | nil => intro v; rfl
  | cons b bs ih =>
    intro v
    rw [List.foldl_cons, ih (g v b), hg]

lemma setRange_length {α : Type} (nCols start count : Nat) (f : Nat → α)
    (l : List α) : (setRange nCols start count f l).length = l.length := by
  unfold setRange
  apply foldl_length_inv
  intro v b
  by_cases h : start + b < nCols <;> simp [h]

lemma placeCell_lengths (nCols : Nat) (colIdx : String → Option Nat)
    (st : RowState) (c : CalsCell)
    (hv : st.values.length = nCols) (hp : st.pending.length = nCols) :
    (placeCell nCols colIdx st c).values.length = nCols ∧
      (placeCell nCols colIdx st c).pending.length = nCols := by
  unfold placeCell
  dsimp only
  split
  · exact ⟨hv, hp⟩
  · refine ⟨?_, ?_⟩
    · dsimp only
      rw [setRange_length, hv]
    · dsimp only
      by_cases hr : 1 < entryRowspan c
      · rw [if_pos hr, setRange_length, hp]
      · rw [if_neg hr]
        exact hp

lemma calsFoldl_lengths (nCols : Nat) (colIdx : String → Option Nat) :
    ∀ (cs : List CalsCell) (st : RowState),
      st.values.length = nCols → st.pending.length = nCols →
      (cs.foldl (placeCell nCols colIdx) st).values.length = nCols ∧
        (cs.foldl (placeCell nCols colIdx) st).pending.length = nCols := by
  intro cs
  induction cs with
  | nil => intro st h1 h2; exact ⟨h1, h2⟩
  | cons c cs ih =>
    intro st h1 h2
    have h := placeCell_lengths nCols colIdx st c h1 h2
    rw [List.foldl_cons]
    exact ih _ h.1 h.2

lemma calsRowStep_lengths (nCols : Nat) (colIdx : String → Option Nat)
    (pending : List (Option (String × Nat))) (cells : List CalsCell)
    (hp : pending.length = nCols) :
    (calsRowStep nCols colIdx pending cells).1.length = nCols ∧
      (calsRowStep nCols colIdx pending cells).2.length = nCols := by
  unfold calsRowStep
  exact calsFoldl_lengths nCols colIdx cells _
    (by simpa using hp) (by simpa using hp)

lemma calsRowsGo_row_length (nCols : Nat) (colIdx : String → Option Nat) :
    ∀ (rows : List (List CalsCell)) (pending : List (Option (String × Nat))),
      pending.length = nCols →
      ∀ row ∈ calsRowsGo nCols colIdx pending rows, row.length = nCols := by
  intro rows
  induction rows with
  | nil => intro pending _ row hrow; simp [calsRowsGo] at hrow
  | cons r rs ih =>
    intro pending hp row hrow
    have hstep := calsRowStep_lengths nCols colIdx pending r hp
    rw [calsRowsGo] at hrow
    rcases List.mem_cons.mp hrow with h | h
    · rw [h]; exact hstep.1
    · exact ih _ hstep.2 row h

/-- C9: every grid produced by CALS reconstruction is rectangular: each row
has exactly the column count established by the colspec sequence (blank fill
and row-span carry-over never change a row length). -/
theorem C9_cals_grid_rectangular (tg : CalsTgroup) (cols : List String)
    (grid : List (List String))
    (h : _cals_table_to_dataframe tg = some (cols, grid)) :
    ∀ row ∈ grid, row.length = cols.length := by
  unfold _cals_table_to_dataframe at h
  split at h
  · exact absurd h (by simp)
  · dsimp only at h
    split at h
    · exact absurd h (by simp)
    · split at h
      · exact absurd h (by simp)
      · rw [Option.some.injEq, Prod.mk.injEq] at h
        obtain ⟨hcols, hgrid⟩ := h
        subst hcols
        subst hgrid
        exact calsRowsGo_row_length _ _ tg.rows _ (by simp)

/-- A two-column CALS tgroup whose first row opens a rowspan. -/
def exC9 : CalsTgroup :=
  { colspecs := [some "a", some "b"],
    rows := [[{ text := "S", morerows := some "1" }, { text := "A" }],
             [{ text := "B" }]] }

theorem C9_cals_grid_witness :
    _cals_table_to_dataframe exC9 = some (["a", "b"], [["S", "A"], ["S", "B"]]) ∧
    (["S", "A"] : List String).length = (["a", "b"] : List String).length :=
  ⟨by decide,
   C9_cals_grid_rectangular exC9 ["a", "b"] [["S", "A"], ["S", "B"]]
     (by decide) ["S", "A"] (by decide)⟩

lemma backfillHeader_hit (rows : List (List String)) (colIdx k : Nat)
    (h : pyStrip (cellOf rows k colIdx) ≠ "") :
    backfillHeader rows colIdx k = some (pyStrip (cellOf rows k colIdx)) := by
  cases k with
  | zero => simp [backfillHeader, h]
  | succ k => simp [backfillHeader, h]

lemma dropWhile_dropWhile {α : Type} (p : α → Bool) (l : List α) :
    (l.dropWhile p).dropWhile p = l.dropWhile p := by
  induction l with
  | nil => rfl
  | cons a l ih =>
    by_cases hp : p a = true
    · rw [List.dropWhile_cons, if_pos hp, ih]
    · rw [List.dropWhile_cons, if_neg hp, List.dropWhile_cons, if_neg hp]

lemma head?_dropWhile_false {α : Type} (p : α → Bool) (l : List α) (c : α)
    (h : (l.dropWhile p).head? = some c) : p c = false := by
  induction l with
  | nil => simp at h
  | cons a l ih =>
    by_cases hp : p a = true
    · rw [List.dropWhile_cons, if_pos hp] at h
      exact ih h
    · rw [List.dropWhile_cons, if_neg hp] at h
      simp only [List.head?_cons, Option.some.injEq] at h
      subst h
      exact Bool.not_eq_true _ ▸ hp

lemma getLast?_dropWhile {α : Type} (p : α → Bool) (l : List α)
    (h : l.dropWhile p ≠ []) : (l.dropWhile p).getLast? = l.getLast? := by
  induction l with
  | nil => simp [List.dropWhile] at h
  | cons a l ih =>
    by_cases hp : p a = true
    · rw [List.dropWhile_cons, if_pos hp] at h ⊢
      cases hl : l with
      | nil => subst hl; simp [List.dropWhile] at h
      | cons b t =>
        rw [← hl, ih h, hl, List.getLast?_cons_cons]
    · rw [List.dropWhile_cons, if_neg hp]

lemma pyStrip_pyStrip (s : String) : pyStrip (pyStrip s) = pyStrip s := by
  unfold pyStrip
  have htl : ∀ cs : List Char, (String.mk cs).toList = cs := fun _ => rfl
  rw [htl]
  congr 1
  set ws := Char.isWhitespace with hws
  set A := s.toList.dropWhile ws with hA
  set B := A.reverse.dropWhile ws with hB
  have h1 : B.reverse.dropWhile ws = B.reverse := by
    cases hR : B.reverse with
    | nil => rfl
    | cons c t =>
      have hBne : B ≠ [] := by
        intro hb
        rw [hb] at hR
        simp at hR
      have hc : B.getLast? = some c := by
        rw [← List.head?_reverse, hR, List.head?_cons]
      have hc2 : A.head? = some c := by
        rw [← List.getLast?_reverse A, ← getLast?_dropWhile ws A.reverse (hB ▸ hBne), ← hB]
        exact hc
      have hpc : ws c = false := head?_dropWhile_false ws s.toList c (hA ▸ hc2)
      rw [List.dropWhile_cons, if_neg (by simp [hpc])]
  rw [h1, List.reverse_reverse, hB, dropWhile_dropWhile]

lemma findIdxQ_some (p : String → Bool) :
    ∀ (l : List String) (i : Nat), (∃ c ∈ l, p c = true) →
      ∃ m, List.findIdx? p l i = some m := by
  intro l
  induction l with
  | nil =>
    intro i h
    obtain ⟨c, hc, _⟩ := h
    simp at hc
  | cons a l ih =>
    intro i h
    by_cases hp : p a = true
    · exact ⟨i, by rw [List.findIdx?_cons, if_pos hp]⟩
    · obtain ⟨c, hc, hpc⟩ := h
      rcases List.mem_cons.mp hc with rfl | hc2
      · exact absurd hpc hp
      · obtain ⟨m, hm⟩ := ih (i + 1) ⟨c, hc2, hpc⟩
        exact ⟨m, by rw [List.findIdx?_cons, if_neg hp]; exact hm⟩

lemma findIdxQ_spec (p : String → Bool) :
    ∀ (l : List String) (i m : Nat), List.findIdx? p l i = some m →
      i ≤ m ∧ ∃ c, l.get? (m - i) = some c ∧ p c = true := by
  intro l
  induction l with
  | nil => intro i m h; rw [List.findIdx?_nil] at h; cases h
  | cons a l ih =>
    intro i m h
    rw [List.findIdx?_cons] at h
    by_cases hp : p a = true
    · rw [if_pos hp] at h
      injection h with h
      subst h
      exact ⟨Nat.le_refl _, a, by simp, hp⟩
    · rw [if_neg hp] at h
      obtain ⟨him, c, hc, hpc⟩ := ih (i + 1) m h
      refine ⟨by omega, c, ?_, hpc⟩
      rw [show m - i = (m - (i + 1)) + 1 by omega]
      simpa using hc

lemma findAnchorAux_some_spec :
    ∀ (rows : List (List String)) (b k : Nat), findAnchorAux b rows = some k →
      k < b ∧ (∃ hdr, rows.get? k = some hdr ∧ rowQualifies hdr = true) ∧
        ∀ i, i < k → ∀ r, rows.get? i = some r → rowQualifies r = false := by
  intro rows
  induction rows with
  | nil =>
    intro b k h
    cases b <;> simp [findAnchorAux] at h
  | cons r rs ih =>
    intro b k h
    cases b with
    | zero => simp [findAnchorAux] at h
    | succ b =>
      by_cases hq : rowQualifies r = true
      · rw [findAnchorAux, if_pos hq] at h
        injection h with h
        subst h
        exact ⟨Nat.succ_pos _, ⟨r, rfl, hq⟩, fun i hi => by omega⟩
      · rw [findAnchorAux, if_neg hq] at h
        obtain ⟨k2, hk2, hkeq⟩ := Option.map_eq_some'.mp h
        subst hkeq
        obtain ⟨hlt, ⟨hdr, hhdr, hhq⟩, hfirst⟩ := ih b k2 hk2
        refine ⟨by omega, ⟨hdr, by simpa using hhdr, hhq⟩, ?_⟩
        intro i hi r2 hr2
        cases i with
        | zero =>
          simp only [List.get?_cons_zero, Option.some.injEq] at hr2
          subst hr2
          exact Bool.not_eq_true _ ▸ hq
        | succ i =>
          exact hfirst i (by omega) r2 (by simpa using hr2)

/-- The column labels after deduplication (line 418 of the source). -/
def dedupedColumns (C : List String) : List String :=
  (keepIndices C).map (cellAt C)

/-- The leading-xyz filter of reorderXyz (line 420). -/
def xyzOf (C2 : List String) : List String :=
  (["x", "y", "z"] : List String).filter (fun c => C2.contains c)

/-- The reordered column-label sequence of reorderXyz (lines 422-423). -/
def namesOf (C2 : List String) : List String :=
  xyzOf C2 ++ C2.filter (fun c => ! (xyzOf C2).contains c)

/-- The label-resolved source indices of reorderXyz. -/
def idxsOf (C2 : List String) : List Nat :=
  (namesOf C2).map (fun n => (C2.findIdx? (fun c => c == n)).getD 0)

lemma dedupeColumns_eq (C : List String) (R : List (List String)) :
    dedupeColumns { columns := C, rows := R } =
      { columns := dedupedColumns C,
        rows := R.map (fun r => (keepIndices C).map (cellAt r)) } := rfl

lemma reorderXyz_eq (C2 : List String) (R2 : List (List String)) :
    reorderXyz { columns := C2, rows := R2 } =
      if (xyzOf C2).length = 3 then
        { columns := namesOf C2,
          rows := R2.map (fun r => (idxsOf C2).map (cellAt r)) }
      else { columns := C2, rows := R2 } := rfl

lemma cellAt_map (idxs : List Nat) (r : List String) (m i : Nat)
    (h : idxs.get? m = some i) :
    cellAt (idxs.map (cellAt r)) m = cellAt r i := by
  unfold cellAt
  rw [List.get?_map, h]
  rfl

lemma mem_dedupedColumns {C : List String} {a : String} (ha : a ∈ C) :
    a ∈ dedupedColumns C := by
  have hex : ∃ n, C.get? n = some a := List.mem_iff_get?.mp ha
  have hspec : C.get? (Nat.find hex) = some a := Nat.find_spec hex
  have hmin : ∀ m, m < Nat.find hex → ¬ C.get? m = some a :=
    fun m hm => Nat.find_min hex hm
  have hi0lt : Nat.find hex < C.length := (List.get?_eq_some.mp hspec).1
  have hcell : cellAt C (Nat.find hex) = a := by
    unfold cellAt
    rw [hspec]
    rfl
  have hkeep : Nat.find hex ∈ keepIndices C := by
    unfold keepIndices
    refine List.mem_filter.mpr ⟨List.mem_range.mpr hi0lt, ?_⟩
    rw [hcell]
    cases hco : (C.take (Nat.find hex)).contains a with
    | false => rfl
    | true =>
      exfalso
      obtain ⟨n, hn⟩ := List.mem_iff_get?.mp (List.elem_iff.mp hco)
      have hnlt : n < Nat.find hex := by
        have h1 := (List.get?_eq_some.mp hn).1
        rw [List.length_take] at h1
        exact (lt_min_iff.mp h1).1
      exact hmin n hnlt (by rw [← List.get?_take hnlt]; exact hn)
  obtain ⟨m, hm⟩ := List.mem_iff_get?.mp hkeep
  have hgd : (dedupedColumns C).get? m = some a := by
    unfold dedupedColumns
    rw [List.get?_map, hm, Option.map_some', hcell]
  exact List.get?_mem hgd

lemma dedupe_index_resolve (C : List String) (m : Nat) (c : String)
    (h : (dedupedColumns C).get? m = some c) :
    ∃ ix, (keepIndices C).get? m = some ix ∧ C.get? ix = some c := by
  unfold dedupedColumns at h
  rw [List.get?_map] at h
  obtain ⟨ix, hkx, hcx⟩ := Option.map_eq_some'.mp h
  refine ⟨ix, hkx, ?_⟩
  have hmem : ix ∈ keepIndices C := List.get?_mem hkx
  have hlt : ix < C.length := by
    unfold keepIndices at hmem
    exact List.mem_range.mp (List.mem_filter.mp hmem).1
  rw [List.get?_eq_get hlt, ← hcx]
  unfold cellAt
  rw [List.get?_eq_get hlt]
  rfl

lemma mem_namesOf {C2 : List String} {a : String} (ha : a ∈ C2) :
    a ∈ namesOf C2 := by
  unfold namesOf
  by_cases hcx : a ∈ xyzOf C2
  · exact List.mem_append.mpr (Or.inl hcx)
  · refine List.mem_append.mpr (Or.inr (List.mem_filter.mpr ⟨ha, ?_⟩))
    cases hcc : (xyzOf C2).contains a with
    | false => rfl
    | true => exact absurd (List.elem_iff.mp hcc) hcx

lemma namesOf_subset {C2 : List String} {a : String} (ha : a ∈ namesOf C2) :
    a ∈ C2 := by
  unfold namesOf at ha
  rcases List.mem_append.mp ha with h1 | h2
  · exact List.elem_iff.mp (List.mem_filter.mp h1).2
  · exact (List.mem_filter.mp h2).1

lemma resolve_axis_dedupe (C : List String) (t : String)
    (h : ∃ c ∈ C, pyLower (pyStrip c) = t) :
    ∃ m ix c,
      List.findIdx? (fun c => pyLower (pyStrip c) == t) (dedupedColumns C) =
        some m ∧
      (keepIndices C).get? m = some ix ∧ C.get? ix = some c ∧
      pyLower (pyStrip c) = t := by
  obtain ⟨a, ha, hpa⟩ := h
  obtain ⟨m, hm⟩ := findIdxQ_some (fun c => pyLower (pyStrip c) == t)
    (dedupedColumns C) 0 ⟨a, mem_dedupedColumns ha, beq_iff_eq.mpr hpa⟩
  obtain ⟨_, c, hc, hpc⟩ := findIdxQ_spec (fun c => pyLower (pyStrip c) == t)
    (dedupedColumns C) 0 m hm
  rw [Nat.sub_zero] at hc
  obtain ⟨ix, hix, hCix⟩ := dedupe_index_resolve C m c hc
  exact ⟨m, ix, c, hm, hix, hCix, eq_of_beq hpc⟩

lemma resolve_axis_reorder (C : List String) (t : String)
    (h : ∃ c ∈ C, pyLower (pyStrip c) = t) :
    ∃ m i1 ix c,
      List.findIdx? (fun c => pyLower (pyStrip c) == t)
        (namesOf (dedupedColumns C)) = some m ∧
      (namesOf (dedupedColumns C)).get? m = some c ∧
      List.findIdx? (fun cc => cc == c) (dedupedColumns C) = some i1 ∧
      (keepIndices C).get? i1 = some ix ∧ C.get? ix = some c ∧
      pyLower (pyStrip c) = t := by
  obtain ⟨a, ha, hpa⟩ := h
  obtain ⟨m, hm⟩ := findIdxQ_some (fun c => pyLower (pyStrip c) == t)
    (namesOf (dedupedColumns C)) 0
    ⟨a, mem_namesOf (mem_dedupedColumns ha), beq_iff_eq.mpr hpa⟩
  obtain ⟨_, c, hcm, hpc⟩ := findIdxQ_spec (fun c => pyLower (pyStrip c) == t)
    (namesOf (dedupedColumns C)) 0 m hm
  rw [Nat.sub_zero] at hcm
  obtain ⟨i1, hi1⟩ := findIdxQ_some (fun cc => cc == c) (dedupedColumns C) 0
    ⟨c, namesOf_subset (List.get?_mem hcm), beq_self_eq_true c⟩
  obtain ⟨_, c2, hc2, hbeq⟩ := findIdxQ_spec (fun cc => cc == c)
    (dedupedColumns C) 0 i1 hi1
  rw [Nat.sub_zero] at hc2
  have hcc : c2 = c := eq_of_beq hbeq
  subst hcc
  obtain ⟨ix, hix, hCix⟩ := dedupe_index_resolve C i1 c2 hc2
  exact ⟨m, i1, ix, c2, hm, hcm, hi1, hix, hCix, eq_of_beq hpc⟩

lemma findAnchorAux_some_of_qualifies :
    ∀ (rows : List (List String)) (b j : Nat) (hdr : List String),
      j < b → rows.get? j = some hdr → rowQualifies hdr = true →
      ∃ k, findAnchorAux b rows = some k := by
  intro rows
  induction rows with
  | nil => intro b j hdr _ hj _; simp at hj
  | cons r rs ih =>
    intro b j hdr hjb hj hq
    cases b with
    | zero => omega
    | succ b =>
      by_cases hqr : rowQualifies r = true
      · exact ⟨0, by rw [findAnchorAux, if_pos hqr]⟩
      · cases j with
        | zero =>
          simp only [List.get?_cons_zero, Option.some.injEq] at hj
          subst hj
          exact absurd hq hqr
        | succ j =>
          obtain ⟨k, hk⟩ := ih b j hdr (by omega) (by simpa using hj) hq
          exact ⟨k + 1, by rw [findAnchorAux, if_neg hqr, hk]; rfl⟩

lemma extract_noreorder (C : List String) (R : List (List String))
    (mx my mz ix iy iz : Nat)
    (hxl : ¬ (xyzOf (dedupedColumns C)).length = 3)
    (hfx : List.findIdx? (fun c => pyLower (pyStrip c) == "x")
        (dedupedColumns C) = some mx)
    (hfy : List.findIdx? (fun c => pyLower (pyStrip c) == "y")
        (dedupedColumns C) = some my)
    (hfz : List.findIdx? (fun c => pyLower (pyStrip c) == "z")
        (dedupedColumns C) = some mz)
    (hkx : (keepIndices C).get? mx = some ix)
    (hky : (keepIndices C).get? my = some iy)
    (hkz : (keepIndices C).get? mz = some iz) :
    _extract_coordinates_from_table
        (reorderXyz (dedupeColumns { columns := C, rows := R })) =
      R.filterMap (fun r =>
        match parseFloat (cellAt r ix), parseFloat (cellAt r iy),
              parseFloat (cellAt r iz) with
        | some a, some b, some c => some (a, b, c)
        | _, _, _ => none) := by
  rw [dedupeColumns_eq, reorderXyz_eq, if_neg hxl]
  unfold _extract_coordinates_from_table
  dsimp only
  have hcx : findColumn (dedupedColumns C) "x" = some mx := hfx
  have hcy : findColumn (dedupedColumns C) "y" = some my := hfy
  have hcz : findColumn (dedupedColumns C) "z" = some mz := hfz
  rw [hcx, hcy, hcz]
  dsimp only
  rw [List.filterMap_map]
  refine congrArg (fun f => R.filterMap f) (funext fun r => ?_)
  simp only [Function.comp_apply]
  rw [cellAt_map (keepIndices C) r mx ix hkx,
    cellAt_map (keepIndices C) r my iy hky,
    cellAt_map (keepIndices C) r mz iz hkz]

lemma extract_reorder (C : List String) (R : List (List String))
    (mx my mz i1x i1y i1z ix iy iz : Nat) (cx cy cz : String)
    (hxl : (xyzOf (dedupedColumns C)).length = 3)
    (hfx : List.findIdx? (fun c => pyLower (pyStrip c) == "x")
        (namesOf (dedupedColumns C)) = some mx)
    (hfy : List.findIdx? (fun c => pyLower (pyStrip c) == "y")
        (namesOf (dedupedColumns C)) = some my)
    (hfz : List.findIdx? (fun c => pyLower (pyStrip c) == "z")
        (namesOf (dedupedColumns C)) = some mz)
    (hnx : (namesOf (dedupedColumns C)).get? mx = some cx)
    (hny : (namesOf (dedupedColumns C)).get? my = some cy)
    (hnz : (namesOf (dedupedColumns C)).get? mz = some cz)
    (hfi1x : List.findIdx? (fun cc => cc == cx) (dedupedColumns C) = some i1x)
    (hfi1y : List.findIdx? (fun cc => cc == cy) (dedupedColumns C) = some i1y)
    (hfi1z : List.findIdx? (fun cc => cc == cz) (dedupedColumns C) = some i1z)
    (hkx : (keepIndices C).get? i1x = some ix)
    (hky : (keepIndices C).get? i1y = some iy)
    (hkz : (keepIndices C).get? i1z = some iz) :
    _extract_coordinates_from_table
        (reorderXyz (dedupeColumns { columns := C, rows := R })) =
      R.filterMap (fun r =>
        match parseFloat (cellAt r ix), parseFloat (cellAt r iy),
              parseFloat (cellAt r iz) with
        | some a, some b, some c => some (a, b, c)
        | _, _, _ => none) := by
  rw [dedupeColumns_eq, reorderXyz_eq, if_pos hxl]
  unfold _extract_coordinates_from_table
  dsimp only
  have hcx : findColumn (namesOf (dedupedColumns C)) "x" = some mx := hfx
  have hcy : findColumn (namesOf (dedupedColumns C)) "y" = some my := hfy
  have hcz : findColumn (namesOf (dedupedColumns C)) "z" = some mz := hfz
  rw [hcx, hcy, hcz]
  dsimp only
  rw [List.map_map, List.filterMap_map]
  refine congrArg (fun f => R.filterMap f) (funext fun r => ?_)
  have hidx : (idxsOf (dedupedColumns C)).get? mx = some i1x := by
    unfold idxsOf
    rw [List.get?_map, hnx, Option.map_some', hfi1x]
    rfl
  have hidy : (idxsOf (dedupedColumns C)).get? my = some i1y := by
    unfold idxsOf
    rw [List.get?_map, hny, Option.map_some', hfi1y]
    rfl
  have hidz : (idxsOf (dedupedColumns C)).get? mz = some i1z := by
    unfold idxsOf
    rw [List.get?_map, hnz, Option.map_some', hfi1z]
    rfl
  simp only [Function.comp_apply]
  rw [cellAt_map (idxsOf (dedupedColumns C)) _ mx i1x hidx,
    cellAt_map (idxsOf (dedupedColumns C)) _ my i1y hidy,
    cellAt_map (idxsOf (dedupedColumns C)) _ mz i1z hidz,
    cellAt_map (keepIndices C) r i1x ix hkx,
    cellAt_map (keepIndices C) r i1y iy hky,
    cellAt_map (keepIndices C) r i1z iz hkz]

/-- The dedupe-then-reorder-then-select pipeline of _normalize_table and
_extract_coordinates_from_table, settled for an arbitrary post-anchor table:
whenever the combined headers contain labels lowercasing to x, y and z, the
pipeline selects one column for each and emits one triple per data row whose
three selected cells all coerce, dropping the others silently. -/
lemma extract_pipeline (C : List String) (R : List (List String))
    (hx : ∃ c ∈ C, pyLower (pyStrip c) = "x")
    (hy : ∃ c ∈ C, pyLower (pyStrip c) = "y")
    (hz : ∃ c ∈ C, pyLower (pyStrip c) = "z") :
    ∃ ix iy iz cx cy cz,
      C.get? ix = some cx ∧ pyLower (pyStrip cx) = "x" ∧
      C.get? iy = some cy ∧ pyLower (pyStrip cy) = "y" ∧
      C.get? iz = some cz ∧ pyLower (pyStrip cz) = "z" ∧
      _extract_coordinates_from_table
          (reorderXyz (dedupeColumns { columns := C, rows := R })) =
        R.filterMap (fun r =>
          match parseFloat (cellAt r ix), parseFloat (cellAt r iy),
                parseFloat (cellAt r iz) with
          | some a, some b, some c => some (a, b, c)
          | _, _, _ => none) := by
  by_cases hxl : (xyzOf (dedupedColumns C)).length = 3
  · obtain ⟨mx, i1x, ix, cx, hfx, hnx, hfi1x, hkx, hCx, hpx⟩ :=
      resolve_axis_reorder C "x" hx
    obtain ⟨my, i1y, iy, cy, hfy, hny, hfi1y, hky, hCy, hpy⟩ :=
      resolve_axis_reorder C "y" hy
    obtain ⟨mz, i1z, iz, cz, hfz, hnz, hfi1z, hkz, hCz, hpz⟩ :=
      resolve_axis_reorder C "z" hz
    exact ⟨ix, iy, iz, cx, cy, cz, hCx, hpx, hCy, hpy, hCz, hpz,
      extract_reorder C R mx my mz i1x i1y i1z ix iy iz cx cy cz hxl
        hfx hfy hfz hnx hny hnz hfi1x hfi1y hfi1z hkx hky hkz⟩
  · obtain ⟨mx, ix, cx, hfx, hkx, hCx, hpx⟩ := resolve_axis_dedupe C "x" hx
    obtain ⟨my, iy, cy, hfy, hky, hCy, hpy⟩ := resolve_axis_dedupe C "y" hy
    obtain ⟨mz, iz, cz, hfz, hkz, hCz, hpz⟩ := resolve_axis_dedupe C "z" hz
    exact ⟨ix, iy, iz, cx, cy, cz, hCx, hpx, hCy, hpy, hCz, hpz,
      extract_noreorder C R mx my mz ix iy iz hxl hfx hfy hfz hkx hky hkz⟩

/-- Lines 395-405: the combined headers assigned after anchoring at row k: for
every column position, the back-filled nearest nonblank stripped cell at or
above the anchor, defaulting to the original column label. -/
def combinedHeaders (df : Dataframe) (k : Nat) : List String :=
  (List.range df.columns.length).map (fun colIdx =>
    (backfillHeader df.rows colIdx k).getD (cellAt df.columns colIdx))

lemma normalize_eq_of_anchor (df : Dataframe) (k : Nat)
    (hanchor : findAnchorAux 5 df.rows = some k) :
    _normalize_table df =
      reorderXyz (dedupeColumns
        { columns := combinedHeaders df k, rows := df.rows.drop (k + 1) }) := by
  have hne : df.rows ≠ [] := by
    intro h
    rw [h] at hanchor
    simp [findAnchorAux] at hanchor
  unfold _normalize_table
  rw [if_neg (by simp [hne])]
  dsimp only
  rw [hanchor]
  rfl

lemma combined_has (df : Dataframe) (k : Nat) (anchor : List String)
    (hrect : ∀ r ∈ df.rows, r.length = df.columns.length)
    (hka : df.rows.get? k = some anchor) (hkq : rowQualifies anchor = true)
    (t : String) (ht : t ∈ (["x", "y", "z"] : List String)) :
    ∃ c ∈ combinedHeaders df k, pyLower (pyStrip c) = t := by
  have hany := List.all_eq_true.mp hkq t ht
  obtain ⟨cell, hcellmem, hpred⟩ := List.any_eq_true.mp hany
  rw [Bool.and_eq_true] at hpred
  obtain ⟨h1, h2⟩ := hpred
  have hne : pyStrip cell ≠ "" := of_decide_eq_true h1
  have hlow : pyLower (pyStrip cell) = t := eq_of_beq h2
  obtain ⟨j, hj⟩ := List.mem_iff_get?.mp hcellmem
  have hjlt : j < anchor.length := (List.get?_eq_some.mp hj).1
  have hjc : j < df.columns.length := by
    rw [← hrect anchor (List.get?_mem hka)]
    exact hjlt
  have hco : cellOf df.rows k j = cell := by
    unfold cellOf cellAt
    rw [hka, Option.getD_some, hj, Option.getD_some]
  have hbf : backfillHeader df.rows j k = some (pyStrip (cellOf df.rows k j)) :=
    backfillHeader_hit df.rows j k (by rw [hco]; exact hne)
  refine ⟨pyStrip cell, ?_, by rw [pyStrip_pyStrip]; exact hlow⟩
  have hg : (combinedHeaders df k).get? j = some (pyStrip cell) := by
    unfold combinedHeaders
    rw [List.get?_map, List.get?_range hjc, Option.map_some', hbf, hco,
      Option.getD_some]
  exact List.get?_mem hg

/-- C7: for every rectangular grid that has, among its first 5 rows, a row
whose lowercased stripped cell set is a superset of x, y, z (case variants and
extra columns included), extraction anchors the header at the first such row
(k below), selects one column labelled x, one labelled y and one labelled z
(case-insensitively, after back-fill, dedupe and reorder), and returns exactly
one numeric triple per data row below the anchor whose three selected cells
all coerce to numbers, rows with any failing coercion being dropped silently. -/
theorem C7_anchor_and_numeric_rows (df : Dataframe) (j : Nat)
    (hdr : List String)
    (hrect : ∀ r ∈ df.rows, r.length = df.columns.length)
    (hj5 : j < 5) (hjrow : df.rows.get? j = some hdr)
    (hjq : rowQualifies hdr = true) :
    ∃ k, findAnchorAux 5 df.rows = some k ∧ k < 5 ∧
      (∃ anchor, df.rows.get? k = some anchor ∧ rowQualifies anchor = true) ∧
      (∀ i, i < k → ∀ r, df.rows.get? i = some r → rowQualifies r = false) ∧
      ∃ ix iy iz cx cy cz,
        (combinedHeaders df k).get? ix = some cx ∧ pyLower (pyStrip cx) = "x" ∧
        (combinedHeaders df k).get? iy = some cy ∧ pyLower (pyStrip cy) = "y" ∧
        (combinedHeaders df k).get? iz = some cz ∧ pyLower (pyStrip cz) = "z" ∧
        _extract_coordinates_from_dataframe df =
          (df.rows.drop (k + 1)).filterMap (fun r =>
            match parseFloat (cellAt r ix), parseFloat (cellAt r iy),
                  parseFloat (cellAt r iz) with
            | some a, some b, some c => some (a, b, c)
            | _, _, _ => none) := by
  obtain ⟨k, hk⟩ := findAnchorAux_some_of_qualifies df.rows 5 j hdr hj5 hjrow hjq
  obtain ⟨hk5, ⟨anchor, hka, hkq⟩, hfirst⟩ :=
    findAnchorAux_some_spec df.rows 5 k hk
  have hhx := combined_has df k anchor hrect hka hkq "x" (by simp)
  have hhy := combined_has df k anchor hrect hka hkq "y" (by simp)
  have hhz := combined_has df k anchor hrect hka hkq "z" (by simp)
  obtain ⟨ix, iy, iz, cx, cy, cz, hCx, hpx, hCy, hpy, hCz, hpz, heq⟩ :=
    extract_pipeline (combinedHeaders df k) (df.rows.drop (k + 1)) hhx hhy hhz
  refine ⟨k, hk, hk5, ⟨anchor, hka, hkq⟩, hfirst,
    ix, iy, iz, cx, cy, cz, hCx, hpx, hCy, hpy, hCz, hpz, ?_⟩
  unfold _extract_coordinates_from_dataframe
  rw [normalize_eq_of_anchor df k hk]
  exact heq

/-- A four-column grid with a title row, a case-variant anchor row holding an
extra Region column, one fully numeric data row and one partly non-numeric
data row. -/
def exC7 : Dataframe :=
  { columns := ["c1", "c2", "c3", "c4"],
    rows := [["Table 2", "", "", ""],
             ["Region", " X ", "Y", "z"],
             ["r1", "1", "2", "3"],
             ["r2", "a", "5", "6"]] }

theorem C7_anchor_witness :
    (∃ k, findAnchorAux 5 exC7.rows = some k ∧ k < 5 ∧
      (∃ anchor, exC7.rows.get? k = some anchor ∧ rowQualifies anchor = true) ∧
      (∀ i, i < k → ∀ r, exC7.rows.get? i = some r → rowQualifies r = false) ∧
      ∃ ix iy iz cx cy cz,
        (combinedHeaders exC7 k).get? ix = some cx ∧
          pyLower (pyStrip cx) = "x" ∧
        (combinedHeaders exC7 k).get? iy = some cy ∧
          pyLower (pyStrip cy) = "y" ∧
        (combinedHeaders exC7 k).get? iz = some cz ∧
          pyLower (pyStrip cz) = "z" ∧
        _extract_coordinates_from_dataframe exC7 =
          (exC7.rows.drop (k + 1)).filterMap (fun r =>
            match parseFloat (cellAt r ix), parseFloat (cellAt r iy),
                  parseFloat (cellAt r iz) with
            | some a, some b, some c => some (a, b, c)
            | _, _, _ => none)) ∧
    (_extract_coordinates_from_dataframe exC7).length = 1 :=
  ⟨C7_anchor_and_numeric_rows exC7 1 ["Region", " X ", "Y", "z"]
      (by decide) (by decide) rfl (by decide),
   by decide⟩

end ECE
